import Mathlib

/-!
# Verification of the propnet core quantity / provenance / storage layer

Shallow embedding of `propnet/core/quantity.py` and
`propnet/dbtools/storage.py`, together with proofs about the embeddings.

Conventions of the embedding:
* pint unit objects are modelled by `UnitE`: a dimension tag (units are
  interconvertible iff their `dim` fields agree, mirroring pint's
  `DimensionalityError` behaviour) and a rational conversion factor to
  the base unit of that dimension.  `PintQ` is a pint quantity: a
  rational magnitude paired with a unit.  Magnitudes are `ℚ`: the
  properties verified here only involve exact decimal values, for which
  host float arithmetic agrees with exact rational arithmetic within the
  stated tolerances.
* `numpy.allclose` on scalars is `|a - b| ≤ atol + rtol * |b|` with the
  numpy defaults `rtol = 1e-5`, `atol = 1e-8`.
* pint's `to_compact` (only reached by `values_close_in_units` when both
  magnitudes are nonzero) is an external-library heuristic; the embedding
  takes it as an explicit function argument, since none of the verified
  properties depend on its behaviour.
-/

/-- A pint unit: dimension tag plus conversion factor to the base unit of
that dimension.  Two units are interconvertible iff their `dim` agree. -/
structure UnitE where
  dim : ℕ
  factor : ℚ
  deriving DecidableEq, Repr

/-- A pint quantity: magnitude plus unit (scalar magnitudes only). -/
structure PintQ where
  mag : ℚ
  u : UnitE
  deriving DecidableEq, Repr

/-- pint's `Quantity.to(units)`: convert to another unit of the same
dimension; `none` models a raised `DimensionalityError`. -/
def PintQ.conv (q : PintQ) (u' : UnitE) : Option PintQ :=
  if q.u.dim = u'.dim then some ⟨q.mag * q.u.factor / u'.factor, u'⟩ else none

/-- Absolute value on magnitudes, written out as Python's `abs`. -/
def rabs (x : ℚ) : ℚ := if x < 0 then -x else x

/-- `np.allclose` for scalars with numpy default tolerances
`rtol = 1e-5`, `atol = 1e-8`. -/
def npAllclose (a b : ℚ) : Bool :=
  rabs (a - b) ≤ 1 / 100000000 + (1 / 100000) * rabs b

/-- The tail of `NumQuantity.values_close_in_units`: convert both sides to
`u` (returning `False` on a `DimensionalityError`, per the `try/except`)
and apply `np.allclose` there. -/
def compareInUnits (lhs rhs : PintQ) (u : UnitE) : Bool :=
  match lhs.conv u, rhs.conv u with
  | some a, some b => npAllclose a.mag b.mag
  | _, _ => false

/-- `NumQuantity.values_close_in_units(lhs, rhs, units_for_comparison)`
(quantity.py lines 587-619), scalar branch.  `compact` is pint's
`to_compact`, supplied as a parameter (external library behaviour, only
relevant when both magnitudes are nonzero). -/
def values_close_in_units (compact : PintQ → PintQ) (lhs rhs : PintQ)
    (ufc : Option UnitE) : Bool :=
  match ufc with
  | some u => compareInUnits lhs rhs u
  | none =>
    if lhs.mag = 0 ∧ rhs.mag = 0 then true
    else
      let u :=
        if lhs.mag = 0 then
          -- "Compare using the units of whatever the zero value is"
          lhs.u
        else if rhs.mag = 0 then
          rhs.u
        else
          -- Select the smaller of the two buffered compacted units
          let lc := compact lhs
          let lcu := (compact ⟨lc.mag + 1, lc.u⟩).u
          let rc := compact rhs
          let rcu := (compact ⟨rc.mag + 1, rc.u⟩).u
          if lcu.factor < rcu.factor then lcu else rcu
      compareInUnits lhs rhs u

/-- The closeness rule for the one-zero case as the specification words
it: compare in the unit of the *nonzero* side.  Stated only to be
compared against the implementation (`values_close_in_units`). -/
def values_close_spec_one_zero (lhs rhs : PintQ) : Bool :=
  if lhs.mag = 0 then compareInUnits lhs rhs rhs.u
  else compareInUnits lhs rhs lhs.u

/-- "dimensionless": pint's trivial unit (dimension tag 0, factor 1). -/
def dimensionlessU : UnitE := ⟨0, 1⟩

/-- Base unit "meter" of the length dimension (tag 1). -/
def meterU : UnitE := ⟨1, 1⟩

/-- "kilometer": length dimension, factor 1000 to the base unit. -/
def kilometerU : UnitE := ⟨1, 1000⟩

/-!
## Symbols, Python values, quantities and provenance

`Symbol` lives in `propnet/core/symbols.py` (the symbol registry is an
external collaborator of the core per the spec); the embedding keeps the
fields the core reads: `name`, `category` (`"object"` versus the numeric
categories), canonical `units`, and the optional `constraint` (kept as
its source text; the sympy evaluator is external and is passed to the
constructors as a function `cEval : String → ℚ → Bool`).
-/

structure SymbolE where
  name : String
  category : String
  units : UnitE
  constraint : Option String
  deriving DecidableEq, Repr

/-- Host (Python) scalar values as they reach the quantity factory.
`bool` is listed separately because in Python `bool` is a subtype of
`int`.  Arrays/nested lists are outside the modelled domain (every claim
under consideration is about scalar payloads). -/
inductive PyVal where
  | none
  | bool (b : Bool)
  | int (n : ℤ)
  | float (q : ℚ)
  | str (s : String)
  | pint (q : PintQ)
  deriving DecidableEq, Repr

/-- Membership in `NumQuantity._ACCEPTABLE_TYPES` (scalar part):
`int`, `float`, `complex`, numpy scalars, `ureg.Quantity`.  A Python
`bool` *is* an instance of `int`, hence acceptable at this stage. -/
def isinstanceAcceptable : PyVal → Bool
  | .int _ => true
  | .float _ => true
  | .pint _ => true
  | .bool _ => true
  | _ => false

/-- Membership in `NumQuantity._UNACCEPTABLE_TYPES = (bool,)`. -/
def isinstanceUnacceptable : PyVal → Bool
  | .bool _ => true
  | _ => false

/-- `NumQuantity.is_acceptable_type` on scalars: acceptable-typed and not
explicitly unacceptable (the explicit `bool` exclusion). -/
def is_acceptable_type (v : PyVal) : Bool :=
  isinstanceAcceptable v && !isinstanceUnacceptable v

/-- Exception classes raised by the embedded operations, one constructor
per raise site family. -/
inductive PErr where
  /-- `ValueError` (e.g. `None` value, mixed aggregation, bad uncertainty) -/
  | valueError
  /-- `TypeError` (invalid value type for a numeric symbol) -/
  | typeError
  /-- pint `DimensionalityError` -/
  | dimensionalityError
  /-- `SymbolConstraintError` -/
  | symbolConstraint
  /-- `IndexError` (`quantities[0]` on an empty list) -/
  | indexError
  /-- the `MissingLookup`-style `ValueError` of `StorageQuantity.to_quantity` -/
  | missingLookup
  /-- the `ValueError` of `ProvenanceStoreQuantity.to_quantity` when no
  value has been looked up -/
  | noValueLookedUp
  deriving DecidableEq, Repr

mutual
/-- `BaseQuantity` subclasses: `NumQuantity` (pint value, optional pint
uncertainty) and `ObjQuantity` (opaque payload). -/
inductive QuantityE where
  | num (symbol : SymbolE) (value : PintQ) (uncertainty : Option PintQ)
        (tags : List String) (provenance : Option ProvE) (internalId : String)
  | obj (symbol : SymbolE) (value : PyVal)
        (tags : List String) (provenance : Option ProvE) (internalId : String)
/-- `ProvenanceElement` (`propnet/core/provenance.py`): producing model
(`None` for sourced/default quantities), free-form `source` metadata
(modelled as a string-keyed association list; a blank string stands for
Python `None`/`""`), and the optional list of input quantities. -/
inductive ProvE where
  | mk (model : Option String) (source : List (String × String))
       (inputs : Option (List QuantityE))
end

def QuantityE.symbol : QuantityE → SymbolE
  | .num s _ _ _ _ _ => s
  | .obj s _ _ _ _ => s

def QuantityE.tags : QuantityE → List String
  | .num _ _ _ t _ _ => t
  | .obj _ _ t _ _ => t

def QuantityE.provenance : QuantityE → Option ProvE
  | .num _ _ _ _ p _ => p
  | .obj _ _ _ p _ => p

def QuantityE.internalId : QuantityE → String
  | .num _ _ _ _ _ i => i
  | .obj _ _ _ _ i => i

/-- `isinstance(q, NumQuantity)`. -/
def QuantityE.isNum : QuantityE → Bool
  | .num _ _ _ _ _ _ => true
  | .obj _ _ _ _ _ => false

/-- The pint value of a numeric quantity (junk default on object
quantities; every use is guarded by an `isNum` check, mirroring the
`isinstance` guard in the source). -/
def QuantityE.numValue : QuantityE → PintQ
  | .num _ v _ _ _ _ => v
  | .obj _ _ _ _ _ => ⟨0, dimensionlessU⟩

def QuantityE.numUncertainty : QuantityE → Option PintQ
  | .num _ _ u _ _ _ => u
  | .obj _ _ _ _ _ => Option.none

/-- Association-list update used to model mutation of the provenance
`source` dict. -/
def sourceSet : List (String × String) → String → String → List (String × String)
  | [], k, v => [(k, v)]
  | (k', v') :: rest, k, v =>
    if k' = k then (k, v) :: rest else (k', v') :: sourceSet rest k v

/-- `source[key] if present else None` on the modelled source dict. -/
def sourceGet (src : List (String × String)) (k : String) : Option String :=
  (src.find? (fun p => p.1 = k)).map Prod.snd

/-- The `BaseQuantity.__init__` pattern
`if key not in source or source[key] in (None, ""): source[key] = value`. -/
def sourceSetIfBlank (src : List (String × String)) (k v : String) :
    List (String × String) :=
  match sourceGet src k with
  | Option.none => sourceSet src k v
  | some cur => if cur = "" then sourceSet src k v else src

/-- `BaseQuantity.__init__` provenance handling: a missing provenance
becomes a default source-only `ProvenanceElement`; a supplied provenance
has `date_created` and `source_key` filled into its `source` when absent
or blank.  `now` is the creation timestamp (external clock). -/
def baseInitProvenance (provenance : Option ProvE) (internalId now : String) : ProvE :=
  match provenance with
  | Option.none =>
    .mk Option.none
      [("source", ""), ("source_key", internalId), ("date_created", now)]
      Option.none
  | some (.mk model src inputs) =>
    .mk model
      (sourceSetIfBlank (sourceSetIfBlank src "date_created" now)
        "source_key" internalId)
      inputs

/-- `NumQuantity.__init__` on scalar values: default the units to the
symbol's canonical units, convert/wrap the value, wrap or convert the
uncertainty, run `BaseQuantity.__init__`, and evaluate the symbol
constraint (via the external sympy evaluator `cEval`). -/
def numQuantityInit (cEval : String → ℚ → Bool) (symbol : SymbolE) (value : PyVal)
    (units : Option UnitE) (tags : List String) (provenance : Option ProvE)
    (uncertainty : Option PyVal) (internalId now : String) : Except PErr QuantityE := do
  let u := units.getD symbol.units
  let valueIn : PintQ ←
    match value with
    | .pint p =>
      match p.conv u with
      | some p' => Except.ok p'
      | Option.none => Except.error PErr.dimensionalityError
    | .int n => Except.ok ⟨(n : ℚ), u⟩
    | .float q => Except.ok ⟨q, u⟩
    | _ => Except.error PErr.typeError
  let unc : Option PintQ ←
    match uncertainty with
    | Option.none => Except.ok Option.none
    | some (.pint p) =>
      match p.conv u with
      | some p' => Except.ok (some p')
      | Option.none => Except.error PErr.dimensionalityError
    | some (.int n) => Except.ok (some ⟨(n : ℚ), u⟩)
    | some (.float q) => Except.ok (some ⟨q, u⟩)
    | some _ => Except.error PErr.valueError
  match symbol.constraint with
  | some c =>
    if cEval c valueIn.mag then
      Except.ok (.num symbol valueIn unc tags
        (some (baseInitProvenance provenance internalId now)) internalId)
    else Except.error PErr.symbolConstraint
  | Option.none =>
    Except.ok (.num symbol valueIn unc tags
      (some (baseInitProvenance provenance internalId now)) internalId)

/-- `ObjQuantity.__init__`.  The dynamic type-coercion branch (looking
up `symbol.object_type` in `sys.modules`) is outside the modelled
domain: the embedded payloads are the already-well-typed opaque values
the claims are about. -/
def objQuantityInit (symbol : SymbolE) (value : PyVal) (tags : List String)
    (provenance : Option ProvE) (internalId now : String) : QuantityE :=
  .obj symbol value tags
    (some (baseInitProvenance provenance internalId now)) internalId

/-- `QuantityFactory.create_quantity` (quantity.py lines 718-791) on
plain (non-`BaseQuantity`) scalar values: numeric symbols reject `None`
and non-acceptable value types, object symbols take the object path
(units/uncertainty are ignored there with a warning). -/
def create_quantity (cEval : String → ℚ → Bool) (symbol : SymbolE) (value : PyVal)
    (units : Option UnitE) (tags : List String) (provenance : Option ProvE)
    (uncertainty : Option PyVal) (internalId now : String) : Except PErr QuantityE :=
  if symbol.category ≠ "object" then
    match value with
    | .none => Except.error PErr.valueError
    | v =>
      if is_acceptable_type v then
        numQuantityInit cEval symbol v units tags provenance uncertainty internalId now
      else Except.error PErr.typeError
  else
    Except.ok (objQuantityInit symbol value tags provenance internalId now)

/-!
## Cycle detection (`BaseQuantity.is_cyclic`)

The visited set carries two kinds of tokens: `Symbol` objects and the
`"model_<name>"` strings (a `Symbol` never equals a string in Python, so
the two kinds never collide and the set is a sum type here).  Note that
`"model_{}".format(model)` renders a `None` model as `"model_None"`.
-/

inductive Tok where
  | sym (s : SymbolE)
  | model (m : String)
  deriving DecidableEq, Repr

/-- `"{}".format(model)`: Python string rendering of the model field. -/
def modelTag : Option String → String
  | Option.none => "None"
  | some s => s

mutual
/-- `BaseQuantity.is_cyclic(visited)` (quantity.py lines 160-191). -/
def isCyclic (q : QuantityE) (visited : List Tok) : Bool :=
  match q with
  | .num s _ _ _ p _ => isCyclicAux s p visited
  | .obj s _ _ p _ => isCyclicAux s p visited
  termination_by sizeOf q

/-- Body of `is_cyclic` after reading the symbol and provenance. -/
def isCyclicAux (s : SymbolE) (p : Option ProvE) (visited : List Tok) : Bool :=
  if Tok.sym s ∈ visited then true
  else
    match p with
    | Option.none => false
    | some (.mk model _ inputs) =>
      let v1 := Tok.sym s :: visited
      let mh := Tok.model ("model_" ++ modelTag model)
      if mh ∈ v1 then true
      else
        match inputs with
        | Option.none => false
        | some l => anyCyclic l (mh :: v1)
  termination_by sizeOf p

/-- The `for p_input in self.provenance.inputs or []` loop: each branch
receives its own copy of the visited set. -/
def anyCyclic (l : List QuantityE) (visited : List Tok) : Bool :=
  match l with
  | [] => false
  | x :: xs => isCyclic x visited || anyCyclic xs visited
  termination_by sizeOf l
end

/-!
## Hashing (`BaseQuantity.__hash__`, quantity.py lines 259-263)

`hash(symbol.name) ^ hash(provenance)` xor-folded over the tag hashes.
Python's `str.hash` is modelled by `String.hash`;
`ProvenanceElement.__hash__` lives in `propnet/core/provenance.py` and is
abstracted as a parameter `hp` — per the spec it is a function of the
provenance value only ("Hash is derived from symbol, provenance, and
tags only").  `NumQuantity.__hash__` and `ObjQuantity.__hash__` both
delegate to this method. -/
def baseHash (hp : Option ProvE → UInt64) (q : QuantityE) : UInt64 :=
  q.tags.foldl (fun h t => h ^^^ String.hash t)
    (String.hash q.symbol.name ^^^ hp q.provenance)

/-!
## Aggregation (`NumQuantity.from_weighted_mean`, quantity.py lines 363-415)

pint arithmetic on scalars: `a + b` and `a - b` convert `b` into the
units of `a` (raising `DimensionalityError`, i.e. `none`, when the
dimensions differ); `sum(vals)` folds addition starting from the first
element; squaring squares magnitude and unit.  The standard deviation is
the square root of the computed variance; the embedding carries the
variance (`stdSqMag`, expressed in the units the constructor converts
the uncertainty into) and exposes the standard deviation as
`AggOut.stdDev = Real.sqrt stdSqMag`.
-/

def pintAdd (a b : PintQ) : Option PintQ :=
  if b.u.dim = a.u.dim then some ⟨a.mag + b.mag * b.u.factor / a.u.factor, a.u⟩
  else Option.none

def pintSub (a b : PintQ) : Option PintQ :=
  if b.u.dim = a.u.dim then some ⟨a.mag - b.mag * b.u.factor / a.u.factor, a.u⟩
  else Option.none

/-- `q ** 2` in pint: squared magnitude, squared unit. -/
def pintSq (d : PintQ) : PintQ := ⟨d.mag ^ 2, ⟨2 * d.u.dim, d.u.factor ^ 2⟩⟩

/-- `sum(vals)` over pint quantities (empty sums do not occur: the code
indexes `quantities[0]` first). -/
def pintSum : List PintQ → Option PintQ
  | [] => Option.none
  | v :: vs => vs.foldl (fun acc x => acc.bind (fun a => pintAdd a x)) (some v)

/-- `sum([(v - new_value) ** 2 for v in vals])`. -/
def pintSumSqDev (vals : List PintQ) (mean : PintQ) : Option PintQ := do
  let devs ← vals.mapM (fun v => (pintSub v mean).map pintSq)
  pintSum devs

/-- `set()`-accumulated tags, in first-seen order. -/
def collectTags (l : List QuantityE) : List String :=
  (l.foldl (fun acc q => acc ++ q.tags) []).dedup

/-- Result of `from_weighted_mean`: a `NumQuantity` with
`provenance = ProvenanceElement(model='aggregation', inputs=l)`, the mean
as value and the standard deviation as uncertainty.  `value` is the mean
after the constructor's conversion into the symbol's canonical units;
`stdSqMag` is the square of the uncertainty magnitude after the same
conversion (squared to stay in `ℚ`; pint unit factors are positive). -/
structure AggOut where
  symbol : SymbolE
  value : PintQ
  stdSqMag : ℚ
  tags : List String
  inputs : List QuantityE

/-- The standard deviation stored as the aggregate's uncertainty. -/
noncomputable def AggOut.stdDev (a : AggOut) : ℝ := Real.sqrt (a.stdSqMag : ℝ)

/-- `NumQuantity.from_weighted_mean(quantities)`: reject non-numeric
members and mixed symbols; compute the arithmetic mean and the (population)
standard deviation; build the aggregate through the `NumQuantity`
constructor (units defaulted to the symbol's canonical units, constraint
evaluated via `cEval`). -/
def from_weighted_mean (cEval : String → ℚ → Bool) (l : List QuantityE) :
    Except PErr AggOut :=
  if ¬ (l.all QuantityE.isNum) then Except.error PErr.valueError
  else
    match l with
    | [] => Except.error PErr.indexError
    | q0 :: _ =>
      if ¬ (l.all fun q => q.symbol = q0.symbol) then Except.error PErr.valueError
      else
        let vals := l.map QuantityE.numValue
        match pintSum vals with
        | Option.none => Except.error PErr.dimensionalityError
        | some s =>
          let mean : PintQ := ⟨s.mag / l.length, s.u⟩
          match pintSumSqDev vals mean with
          | Option.none => Except.error PErr.dimensionalityError
          | some varSum =>
            let varMag := varSum.mag / l.length
            match mean.conv q0.symbol.units with
            | Option.none => Except.error PErr.dimensionalityError
            | some value' =>
              let out : AggOut :=
                { symbol := q0.symbol
                  value := value'
                  stdSqMag := varMag * (mean.u.factor / q0.symbol.units.factor) ^ 2
                  tags := collectTags l
                  inputs := l }
              match q0.symbol.constraint with
              | some c =>
                if cEval c value'.mag then Except.ok out
                else Except.error PErr.symbolConstraint
              | Option.none => Except.ok out

/-!
## Concrete objects used by the theorems
-/

/-- Arithmetic mean of a list of magnitudes (the specification's words). -/
def listMean (xs : List ℚ) : ℚ := xs.sum / xs.length

/-- Population variance of a list of magnitudes (square of the standard
deviation computed by `from_weighted_mean`, which divides by `N`). -/
def listVar (xs : List ℚ) : ℚ :=
  (xs.map (fun x => (x - listMean xs) ^ 2)).sum / xs.length

/-- A dimensionless numeric symbol with no constraint (the
`Symbol("A", units='dimensionless')` of the test suite). -/
def aggSym : SymbolE := ⟨"A", "property", dimensionlessU, Option.none⟩

/-- A dimensionless object symbol (`Symbol("B", category='object')`). -/
def objSym : SymbolE := ⟨"B", "object", dimensionlessU, Option.none⟩

/-- A third dimensionless numeric symbol. -/
def cSym : SymbolE := ⟨"C", "property", dimensionlessU, Option.none⟩

/-- The spec's aggregation example: quantities with values evenly spaced
over [1.0, 2.0] in steps of 0.01 (101 values), same symbol, no units. -/
def aggTestList : List QuantityE :=
  (List.range 101).map fun (k : ℕ) =>
    QuantityE.num aggSym ⟨1 + (k : ℚ) / 100, dimensionlessU⟩ Option.none
      ["testing"] Option.none ""

/-- A three-node provenance chain: a quantity of symbol `sA` produced by
model `m1` from a quantity of symbol `sB` produced by model `m2` from a
leaf quantity of symbol `sC` carrying the default (source-only)
provenance. -/
def chain3 (sA sB sC : SymbolE) (m1 m2 : String) : QuantityE :=
  QuantityE.num sA ⟨1, dimensionlessU⟩ Option.none []
    (some (ProvE.mk (some m1) []
      (some [QuantityE.num sB ⟨2, dimensionlessU⟩ Option.none []
        (some (ProvE.mk (some m2) []
          (some [QuantityE.num sC ⟨3, dimensionlessU⟩ Option.none []
            (some (ProvE.mk Option.none [("source", "")] Option.none))
            "q_low"]))) "q_mid"]))) "q_high"

/-!
## Storage layer (`propnet/dbtools/storage.py`)

`ProvenanceStoreQuantity` (`PSQE`) and `ProvenanceStore` (`PStoreE`)
mirror the storage classes; `SQE` is the top-level `StorageQuantity`.
A `PSQE` built from a live quantity keeps its value (`_value_retrieved =
self.value is not None`); values only go missing through the JSON
`from_dict` path, whose objects are also representable here (arbitrary
field combinations with `fromDict = true`).  The error branches of
`lookup_value` for ill-typed lookup returns are outside the modelled
domain: lookups are modelled as well-typed functions
`String → Option LookupRec`.
-/

mutual
/-- `ProvenanceStoreQuantity`: identifying metadata, optionally resolved
value/units/uncertainty, nested provenance, and the `_from_dict` /
`_value_retrieved` flags. -/
inductive PSQE where
  | mk (dataType : String) (symbol : SymbolE) (internalId : String)
       (tags : List String) (units : Option UnitE) (value : Option PyVal)
       (uncertainty : Option ℚ) (provenance : Option PStoreE)
       (fromDict : Bool) (valueRetrieved : Bool)
/-- `ProvenanceStore`: model, source metadata, optional input list. -/
inductive PStoreE where
  | mk (model : Option String) (source : List (String × String))
       (inputs : Option (List PSQE))
end

def PSQE.internalId : PSQE → String
  | .mk _ _ i _ _ _ _ _ _ _ => i

def PSQE.value : PSQE → Option PyVal
  | .mk _ _ _ _ _ v _ _ _ _ => v

def PSQE.units : PSQE → Option UnitE
  | .mk _ _ _ _ u _ _ _ _ _ => u

def PSQE.uncertainty : PSQE → Option ℚ
  | .mk _ _ _ _ _ _ u _ _ _ => u

def PSQE.provenance : PSQE → Option PStoreE
  | .mk _ _ _ _ _ _ _ p _ _ => p

def PSQE.fromDict : PSQE → Bool
  | .mk _ _ _ _ _ _ _ _ f _ => f

/-- `ProvenanceStoreQuantity.is_value_retrieved()`. -/
def PSQE.valueRetrieved : PSQE → Bool
  | .mk _ _ _ _ _ _ _ _ _ r => r

/-- `StorageQuantity` (top-level storage object). -/
structure SQE where
  dataType : String
  symbol : SymbolE
  internalId : String
  tags : List String
  units : Option UnitE
  value : Option PyVal
  uncertainty : Option ℚ
  provenance : Option PStoreE

/-- Python truthiness of a stored value (`self.value is not None`). -/
def storedValueIsNone : Option PyVal → Bool
  | Option.none => true
  | some PyVal.none => true
  | some _ => false

/-- The stored `_value` of a live quantity (`quantity.magnitude`). -/
def storedValueOf : QuantityE → PyVal
  | .num _ v _ _ _ _ => PyVal.float v.mag
  | .obj _ v _ _ _ => v

/-- The stored `_units` of a live quantity (`quantity.units`, `None` for
object quantities). -/
def storedUnitsOf : QuantityE → Option UnitE
  | .num _ v _ _ _ _ => some v.u
  | .obj _ _ _ _ _ => Option.none

/-- The stored `_uncertainty`
(`quantity.uncertainty.magnitude if quantity.uncertainty else None`;
a zero-magnitude pint quantity is falsy). -/
def storedUncOf : QuantityE → Option ℚ
  | .num _ _ (some u) _ _ _ => if u.mag = 0 then Option.none else some u.mag
  | .num _ _ Option.none _ _ _ => Option.none
  | .obj _ _ _ _ _ => Option.none

/-- `"NumQuantity"` / `"ObjQuantity"` (`__class__.__name__`). -/
def dataTypeOf : QuantityE → String
  | .num _ _ _ _ _ _ => "NumQuantity"
  | .obj _ _ _ _ _ => "ObjQuantity"

mutual
/-- `ProvenanceStoreQuantity.from_quantity` on a live quantity: a full
`StorageQuantity.__init__` with `from_dict = False` and
`value_retrieved = (value is not None)`.  A `None` provenance silently
becomes the empty `ProvenanceStore` (the `ProvenanceStore(None)` path). -/
def psqFromQuantity (q : QuantityE) : PSQE :=
  match q with
  | .num sym v unc tags prov iid =>
    .mk "NumQuantity" sym iid tags (some v.u) (some (PyVal.float v.mag))
      (storedUncOf (.num sym v unc tags prov iid))
      (some (match prov with
             | Option.none => .mk Option.none [] Option.none
             | some pe => storeFromProv pe)) false true
  | .obj sym v tags prov iid =>
    .mk "ObjQuantity" sym iid tags Option.none (some v) Option.none
      (some (match prov with
             | Option.none => .mk Option.none [] Option.none
             | some pe => storeFromProv pe)) false (!storedValueIsNone (some v))
  termination_by structural q

/-- `ProvenanceStore.__init__` on a `ProvenanceElement`: inputs become
`ProvenanceStoreQuantity` objects (`None` when the input list is falsy). -/
def storeFromProv : ProvE → PStoreE
  | .mk model source inputs =>
    .mk model source
      (match inputs with
       | Option.none => Option.none
       | some l => if l.isEmpty then Option.none else some (psqListFrom l))
  termination_by structural pe => pe

def psqListFrom : List QuantityE → List PSQE
  | [] => []
  | x :: xs => psqFromQuantity x :: psqListFrom xs
  termination_by structural l => l
end

/-- `ProvenanceStore.from_provenance_element` incl. the silent empty
store a `None` provenance produces. -/
def storeFromProvOpt : Option ProvE → PStoreE
  | Option.none => .mk Option.none [] Option.none
  | some pe => storeFromProv pe

/-- `StorageQuantity.from_quantity` on a live (`BaseQuantity`) input:
`StorageQuantity.__init__`/`_initialize`. -/
def sqFromQuantity (q : QuantityE) : SQE :=
  { dataType := dataTypeOf q
    symbol := q.symbol
    internalId := q.internalId
    tags := q.tags
    units := storedUnitsOf q
    value := some (storedValueOf q)
    uncertainty := storedUncOf q
    provenance := some (storeFromProvOpt q.provenance) }

mutual
/-- `rec_get_missing_keys` over a provenance store: ids of inputs whose
value was not retrieved, throughout the tree.  (A `None` nested
provenance is skipped; live-built storage objects always carry a store.) -/
def storeMissing : PStoreE → List String
  | .mk _ _ inputs =>
    match inputs with
    | Option.none => []
    | some l => if l.isEmpty then [] else psqListMissing l
  termination_by structural p => p

def psqListMissing : List PSQE → List String
  | [] => []
  | .mk _ _ iid _ _ _ _ prov _ vr :: xs =>
    (if !vr then [iid] else []) ++
      (match prov with
       | some p => storeMissing p
       | Option.none => []) ++ psqListMissing xs
  termination_by structural l => l
end

/-- `StorageQuantity.get_missing_keys()`. -/
def SQE.get_missing_keys (sq : SQE) : List String :=
  match sq.provenance with
  | some p => storeMissing p
  | Option.none => []

/-- `StorageQuantity.needs_lookup()` exactly as written in the source:
`return not self.get_missing_keys()` — i.e. **`True` iff the missing-key
set is empty**.  (The method's own docstring promises the opposite:
"True if there are inputs missing values in the provenance tree".) -/
def SQE.needs_lookup (sq : SQE) : Bool := sq.get_missing_keys.isEmpty

/-- The record a lookup dict/function returns for an internal id. -/
structure LookupRec where
  value : PyVal
  units : Option UnitE
  uncertainty : Option ℚ

/-- A lookup container, keyed by internal id. -/
def LookupF : Type := String → Option LookupRec

/-- `ProvenanceStoreQuantity.lookup_value(lookup)` as a state
transformer: on a hit the value/units/uncertainty fields are overwritten
and `_value_retrieved` is set, returning `True`; on a miss the object is
left untouched and `False` is returned (only a warning is logged). -/
def psqLookupValue (q : PSQE) (lf : LookupF) : PSQE × Bool :=
  match q with
  | .mk dt sym iid tags units value unc prov fd vr =>
    match lf iid with
    | Option.none => (.mk dt sym iid tags units value unc prov fd vr, false)
    | some d => (.mk dt sym iid tags d.units (some d.value) d.uncertainty prov fd true, true)

mutual
/-- `ProvenanceStore.to_provenance_element(lookup)`: convert every input
back to a quantity (a falsy input list becomes `None`). -/
def storeToProvElem (cEval : String → ℚ → Bool) (lookup : Option LookupF)
    (now : String) : PStoreE → Except PErr ProvE
  | .mk model source inputs =>
    (match inputs with
     | some l =>
       if l.isEmpty then Except.ok Option.none
       else (psqListToQuantity cEval lookup now l).map some
     | Option.none => Except.ok Option.none).map fun inputsE =>
      ProvE.mk model source inputsE
  termination_by structural p => p

def psqListToQuantity (cEval : String → ℚ → Bool) (lookup : Option LookupF)
    (now : String) : List PSQE → Except PErr (List QuantityE)
  | [] => Except.ok []
  | x :: xs => do
    let q ← psqToQuantity cEval lookup now x
    let rest ← psqListToQuantity cEval lookup now xs
    Except.ok (q :: rest)
  termination_by structural l => l

/-- `ProvenanceStoreQuantity.to_quantity(lookup)` (storage.py lines
511-527): work on a deep copy, run `lookup_value` on the copy when a
lookup is given, fail when no value has been retrieved, else continue
with the inherited `StorageQuantity.to_quantity` body on the copy
(inlined here: the `needs_lookup() and not lookup` gate exactly as the
source computes it, then the provenance rebuild through
`QuantityFactory.create_quantity`, the fresh internal id overridden with
the stored one). -/
def psqToQuantity (cEval : String → ℚ → Bool) (lookup : Option LookupF)
    (now : String) (q : PSQE) : Except PErr QuantityE :=
  match q with
  | .mk _dt sym iid tags units value unc prov _fd valRetr =>
    let resolved :=
      match lookup with
      | some lf =>
        match lf iid with
        | some d => (some d.value, d.units, d.uncertainty, true)
        | Option.none => (value, units, unc, valRetr)
      | Option.none => (value, units, unc, valRetr)
    if !resolved.2.2.2 then Except.error PErr.noValueLookedUp
    else
      if ((match prov with
           | some p => storeMissing p
           | Option.none => []).isEmpty) && lookup.isNone then
        Except.error PErr.missingLookup
      else
        (match prov with
         | some p => (storeToProvElem cEval lookup now p).map some
         | Option.none => Except.ok Option.none).bind fun provIn =>
          create_quantity cEval sym (resolved.1.getD PyVal.none) resolved.2.1
            tags provIn (resolved.2.2.1.map PyVal.float) iid now
  termination_by structural q
end

/-- `StorageQuantity.to_quantity(lookup)` (storage.py lines 190-234):
raise the missing-lookup `ValueError` when `needs_lookup() and not
lookup` (with `needs_lookup` as the source computes it), otherwise
rebuild the provenance and feed everything through
`QuantityFactory.create_quantity`, overriding the fresh internal id with
the stored one. -/
def SQE.toQuantity (cEval : String → ℚ → Bool) (lookup : Option LookupF)
    (now : String) (sq : SQE) : Except PErr QuantityE :=
  if ((match sq.provenance with
       | some p => storeMissing p
       | Option.none => []).isEmpty) && lookup.isNone then
    Except.error PErr.missingLookup
  else
    (match sq.provenance with
     | some p => (storeToProvElem cEval lookup now p).map some
     | Option.none => Except.ok Option.none).bind fun provIn =>
      create_quantity cEval sq.symbol (sq.value.getD PyVal.none) sq.units
        sq.tags provIn (sq.uncertainty.map PyVal.float) sq.internalId now

/-- `ProvenanceStoreQuantity.to_quantity(lookup)` with the receiver's
state made explicit: the method deep-copies the receiver, performs
`lookup_value` and the rebuild on the copy, and the receiver itself is
returned unchanged as the second component. -/
def psqToQuantityStateful (cEval : String → ℚ → Bool) (lookup : Option LookupF)
    (now : String) (q : PSQE) : Except PErr QuantityE × PSQE :=
  -- copy_of_self = copy.deepcopy(self): an independent value
  let copySelf := q
  let copySelf :=
    match lookup with
    | some lf => (psqLookupValue copySelf lf).1
    | Option.none => copySelf
  let result :=
    if !copySelf.valueRetrieved then Except.error PErr.noValueLookedUp
    else
      match copySelf with
      | .mk dt sym iid tags units value unc prov _ _ =>
        SQE.toQuantity cEval lookup now ⟨dt, sym, iid, tags, units, value, unc, prov⟩
  -- every mutation above targeted the deep copy, never the receiver
  (result, q)

/-!
## Storage equality (`StorageQuantity.__eq__`, `ProvenanceStore.__eq__`)

`StorageQuantity.__eq__`: same internal id and equal provenance.
`ProvenanceStore.__eq__`: same model and `set(inputs or []) ==
set(other.inputs or [])` — Python set equality under the element
`__eq__`, i.e. every member of one list has an equal member in the
other. -/

mutual
/-- `StorageQuantity.__eq__` between storage quantities. -/
def psqEqB : PSQE → PSQE → Bool
  | .mk _ _ iid1 _ _ _ _ prov1 _ _, .mk _ _ iid2 _ _ _ _ prov2 _ _ =>
    iid1 = iid2 && provOptEqB prov1 prov2
  termination_by a b => 2 * (sizeOf a + sizeOf b)

/-- Equality of optional provenance (`None == None` is `True`). -/
def provOptEqB : Option PStoreE → Option PStoreE → Bool
  | Option.none, Option.none => true
  | some a, some b => psStoreEqB a b
  | _, _ => false
  termination_by a b => 2 * (sizeOf a + sizeOf b)

/-- `ProvenanceStore.__eq__` (storage.py lines 436-444). -/
def psStoreEqB : PStoreE → PStoreE → Bool
  | .mk m1 _ i1, .mk m2 _ i2 =>
    m1 == m2 && listSetEqB (i1.getD []) (i2.getD [])
  termination_by a b => 2 * (sizeOf a + sizeOf b)
  decreasing_by
    simp_wf
    have h1 : sizeOf (i1.getD ([] : List PSQE)) ≤ sizeOf i1 := by
      cases i1 <;> simp [Option.getD]
    have h2 : sizeOf (i2.getD ([] : List PSQE)) ≤ sizeOf i2 := by
      cases i2 <;> simp [Option.getD]
    omega

/-- `set(xs) == set(ys)` under the element `__eq__`. -/
def listSetEqB (xs ys : List PSQE) : Bool :=
  allMemB xs ys && allMemB ys xs
  termination_by 2 * (sizeOf xs + sizeOf ys) + 1

def allMemB : List PSQE → List PSQE → Bool
  | [], _ => true
  | x :: xs, ys => anyEqB x ys && allMemB xs ys
  termination_by xs ys => 2 * (sizeOf xs + sizeOf ys)

def anyEqB : PSQE → List PSQE → Bool
  | _, [] => false
  | x, y :: ys => psqEqB x y || anyEqB x ys
  termination_by x ys => 2 * (sizeOf x + sizeOf ys)
end

/-- The concrete quantity (symbol `A`, value 5, default source-only
provenance) used to exhibit the `needs_lookup` inversion. -/
def c1Quantity : QuantityE :=
  QuantityE.num aggSym ⟨5, dimensionlessU⟩ Option.none []
    (some (ProvE.mk Option.none
      [("source", ""), ("source_key", "c1id"), ("date_created", "d")]
      Option.none)) "c1id"

/-- A derived quantity (one fully-resolved provenance input) used for
the round-trip check. -/
def c3Quantity : QuantityE :=
  QuantityE.num aggSym ⟨7, dimensionlessU⟩ Option.none ["t"]
    (some (ProvE.mk (some "m")
      [("source_key", "c3top"), ("date_created", "d")]
      (some [c1Quantity]))) "c3top"

/-- A deserialized (`from_dict`) provenance input whose value was never
looked up. -/
def c1UnresolvedInput : PSQE :=
  PSQE.mk "NumQuantity" aggSym "u1" [] Option.none Option.none Option.none
    (some (PStoreE.mk Option.none [] Option.none)) true false

/-- A storage quantity whose provenance holds the unresolved input
`c1UnresolvedInput` (so its missing-key set is nonempty). -/
def c1UnresolvedSQ : SQE :=
  { dataType := "NumQuantity", symbol := aggSym, internalId := "c1u", tags := []
    units := some dimensionlessU, value := some (PyVal.float 2)
    uncertainty := Option.none
    provenance := some (PStoreE.mk (some "m") [] (some [c1UnresolvedInput])) }

/-- Resolved storage input quantities used by the equality witnesses. -/
def psqW1 : PSQE :=
  PSQE.mk "NumQuantity" aggSym "w1" [] (some dimensionlessU)
    (some (PyVal.float 1)) Option.none
    (some (PStoreE.mk Option.none [("date_created", "d1")] Option.none)) false true

def psqW2 : PSQE :=
  PSQE.mk "NumQuantity" aggSym "w2" [] (some dimensionlessU)
    (some (PyVal.float 2)) Option.none
    (some (PStoreE.mk Option.none [("date_created", "d2")] Option.none)) false true

/-- C2 counterexample: for 0 km versus 1e-5 m the implementation compares
in the unit of the *zero* side (km), where the converted values 0 and
1e-8 pass `np.allclose`, so it answers `true`; the rule as claimed
(compare in the unit of the nonzero side, m) answers `false` there.
Hence the code does not apply the tolerance test in the unit of the
nonzero side. -/
theorem c2_counterexample :
    values_close_in_units id ⟨0, kilometerU⟩ ⟨1/100000, meterU⟩ none = true ∧
    values_close_spec_one_zero ⟨0, kilometerU⟩ ⟨1/100000, meterU⟩ = false := by
  constructor <;>
    norm_num [values_close_in_units, values_close_spec_one_zero,
      compareInUnits, PintQ.conv, npAllclose, rabs, meterU, kilometerU]

/-- C2 (amended): when both magnitudes are zero the values are close; when
exactly one magnitude is zero, `values_close_in_units` converts both
values into the unit of the **zero** side and applies the standard
relative+absolute tolerance there — independently of the `to_compact`
heuristic. -/
theorem c2_zero_comparison (compact : PintQ → PintQ) (lhs rhs : PintQ) :
    (lhs.mag = 0 → rhs.mag = 0 →
      values_close_in_units compact lhs rhs none = true) ∧
    (lhs.mag = 0 → rhs.mag ≠ 0 →
      values_close_in_units compact lhs rhs none = compareInUnits lhs rhs lhs.u) ∧
    (lhs.mag ≠ 0 → rhs.mag = 0 →
      values_close_in_units compact lhs rhs none = compareInUnits lhs rhs rhs.u) := by
  refine ⟨fun h1 h2 => ?_, fun h1 h2 => ?_, fun h1 h2 => ?_⟩ <;>
    simp [values_close_in_units, h1, h2]

/-- Witness for `c2_zero_comparison` at concrete inputs. -/
theorem c2_zero_comparison_witness :
    values_close_in_units id ⟨0, kilometerU⟩ ⟨0, meterU⟩ none = true ∧
    values_close_in_units id ⟨0, kilometerU⟩ ⟨3, meterU⟩ none =
      compareInUnits ⟨0, kilometerU⟩ ⟨3, meterU⟩ kilometerU ∧
    values_close_in_units id ⟨3, kilometerU⟩ ⟨0, meterU⟩ none =
      compareInUnits ⟨3, kilometerU⟩ ⟨0, meterU⟩ meterU :=
  ⟨(c2_zero_comparison id ⟨0, kilometerU⟩ ⟨0, meterU⟩).1 rfl rfl,
   (c2_zero_comparison id ⟨0, kilometerU⟩ ⟨3, meterU⟩).2.1 rfl (by norm_num),
   (c2_zero_comparison id ⟨3, kilometerU⟩ ⟨0, meterU⟩).2.2 (by norm_num) rfl⟩

/-- C6: aggregating a list that contains an object quantity fails with
the `ValueError` ("Weighted mean cannot be applied to objects"); no
aggregate is produced. -/
theorem c6_mixed_aggregation_fails (cEval : String → ℚ → Bool)
    (l : List QuantityE) (q : QuantityE) (hmem : q ∈ l)
    (hobj : q.isNum = false) :
    from_weighted_mean cEval l = Except.error PErr.valueError := by
  have hall : ¬ (l.all QuantityE.isNum = true) := by
    intro h
    rw [List.all_eq_true] at h
    exact absurd (h q hmem) (by simp [hobj])
  simp only [from_weighted_mean]
  rw [if_pos (by simpa using hall)]

/-- Witness for `c6_mixed_aggregation_fails`: a numeric quantity mixed
with an object quantity under the same symbol. -/
theorem c6_mixed_aggregation_fails_witness :
    from_weighted_mean (fun _ _ => true)
      [QuantityE.num aggSym ⟨1, dimensionlessU⟩ Option.none [] Option.none "a",
       QuantityE.obj aggSym (PyVal.str "payload") [] Option.none "b"] =
      Except.error PErr.valueError :=
  c6_mixed_aggregation_fails (fun _ _ => true) _
    (QuantityE.obj aggSym (PyVal.str "payload") [] Option.none "b")
    (List.Mem.tail _ (List.Mem.head _)) rfl

/-- C7: for a numeric-category symbol, `create_quantity` raises
`ValueError` on a `None` value and `TypeError` on a boolean value
(booleans are instances of `int` but are rejected through
`_UNACCEPTABLE_TYPES`); no quantity is constructed in either case. -/
theorem c7_create_quantity_rejects (cEval : String → ℚ → Bool)
    (sym : SymbolE) (units : Option UnitE) (tags : List String)
    (prov : Option ProvE) (unc : Option PyVal) (iid now : String) (b : Bool)
    (hnum : sym.category ≠ "object") :
    create_quantity cEval sym PyVal.none units tags prov unc iid now =
      Except.error PErr.valueError ∧
    create_quantity cEval sym (PyVal.bool b) units tags prov unc iid now =
      Except.error PErr.typeError := by
  constructor <;>
    simp [create_quantity, hnum, is_acceptable_type, isinstanceAcceptable,
      isinstanceUnacceptable]

/-- Witness for `c7_create_quantity_rejects` on the dimensionless numeric
symbol. -/
theorem c7_create_quantity_rejects_witness :
    create_quantity (fun _ _ => true) aggSym PyVal.none Option.none []
        Option.none Option.none "id0" "now" = Except.error PErr.valueError ∧
    create_quantity (fun _ _ => true) aggSym (PyVal.bool true) Option.none []
        Option.none Option.none "id0" "now" = Except.error PErr.typeError :=
  c7_create_quantity_rejects (fun _ _ => true) aggSym Option.none []
    Option.none Option.none "id0" "now" true (by decide)

/-- C8: the quantity hash is computed from the symbol name, the
provenance and the tags only, so two quantities agreeing on symbol, tags
and provenance hash identically whatever their values and uncertainties
are (`hp` is the hash of the provenance element, a function of the
provenance value). -/
theorem c8_hash_ignores_values (hp : Option ProvE → UInt64)
    (q1 q2 : QuantityE) (hsym : q1.symbol = q2.symbol)
    (htags : q1.tags = q2.tags) (hprov : q1.provenance = q2.provenance) :
    baseHash hp q1 = baseHash hp q2 := by
  simp [baseHash, hsym, htags, hprov]

/-- Witness for `c8_hash_ignores_values`: equal hashes for two quantities
of the same symbol, tags and provenance whose values (5 vs 42) and
uncertainties (none vs some) differ. -/
theorem c8_hash_ignores_values_witness :
    baseHash (fun _ => 0)
        (QuantityE.num aggSym ⟨5, dimensionlessU⟩ Option.none ["t"] Option.none "a") =
      baseHash (fun _ => 0)
        (QuantityE.num aggSym ⟨42, dimensionlessU⟩ (some ⟨1, dimensionlessU⟩)
          ["t"] Option.none "b") :=
  c8_hash_ignores_values (fun _ => 0) _ _ rfl rfl rfl

/-- `String.append` is left-cancellative (helper for reasoning about the
`"model_{}"` visited-set tokens). -/
theorem string_append_left_cancel {a b c : String} :
    a ++ b = a ++ c ↔ b = c := by
  constructor
  · intro h
    have hd := congrArg String.data h
    simp [String.data_append] at hd
    exact String.ext hd
  · intro h
    rw [h]

/-- C5: a provenance chain that returns to its own symbol after two model
hops (`sA ← m1 ← sB ← m2 ← sA`) is reported cyclic, for any symbols and
model names; a two-model-hop chain ending at a fresh symbol
(`sA ← m1 ← sB ← m2 ← sC`, all symbols distinct, distinct model names,
neither colliding with the `"model_None"` token of the leaf's default
provenance) is not cyclic. -/
theorem c5_is_cyclic_two_hop :
    (∀ (sA sB : SymbolE) (m1 m2 : String),
      isCyclic (chain3 sA sB sA m1 m2) [] = true) ∧
    (∀ (sA sB sC : SymbolE) (m1 m2 : String),
      sA ≠ sB → sC ≠ sA → sC ≠ sB → m1 ≠ m2 → m1 ≠ "None" → m2 ≠ "None" →
      isCyclic (chain3 sA sB sC m1 m2) [] = false) := by
  constructor
  · intro sA sB m1 m2
    by_cases h1 : sB = sA
    · subst h1
      simp [chain3, isCyclic, isCyclicAux, anyCyclic, modelTag]
    · by_cases h2 : m2 = m1
      · subst h2
        simp [chain3, isCyclic, isCyclicAux, anyCyclic, modelTag, h1]
      · have k2 : ¬ (("model_" ++ m2 : String) = "model_" ++ m1) :=
          fun h => h2 (string_append_left_cancel.mp h)
        simp [chain3, isCyclic, isCyclicAux, anyCyclic, modelTag, h1, k2]
  · intro sA sB sC m1 m2 hs1 hs2 hs3 hm hn1 hn2
    have k1 : ¬ (("model_" ++ m2 : String) = "model_" ++ m1) :=
      fun h => hm (string_append_left_cancel.mp h).symm
    have e : ("model_" ++ "None" : String) = "model_None" := by decide
    have k2 : ¬ (("model_None" : String) = "model_" ++ m1) :=
      fun h => hn1 (string_append_left_cancel.mp (e.trans h)).symm
    have k3 : ¬ (("model_None" : String) = "model_" ++ m2) :=
      fun h => hn2 (string_append_left_cancel.mp (e.trans h)).symm
    have hs1' : ¬ (sB = sA) := fun h => hs1 h.symm
    simp [chain3, isCyclic, isCyclicAux, anyCyclic, modelTag,
      hs1', hs2, hs3, k1, k2, k3]

/-- Witness for `c5_is_cyclic_two_hop`: the `A ← A_to_B ← B ← B_to_A ← A`
chain of the test suite is cyclic; the variant ending at a third symbol
`C` is not. -/
theorem c5_is_cyclic_two_hop_witness :
    isCyclic (chain3 aggSym objSym aggSym "B_to_A" "A_to_B") [] = true ∧
    isCyclic (chain3 aggSym objSym cSym "B_to_A" "A_to_B") [] = false :=
  ⟨c5_is_cyclic_two_hop.1 aggSym objSym "B_to_A" "A_to_B",
   c5_is_cyclic_two_hop.2 aggSym objSym cSym "B_to_A" "A_to_B"
     (by decide) (by decide) (by decide) (by decide) (by decide) (by decide)⟩

/-- Folding pint addition over quantities sharing one unit adds the
magnitudes. -/
theorem foldl_pintAdd_const_unit (u : UnitE) (hf : u.factor ≠ 0)
    (vs : List PintQ) :
    ∀ (a : ℚ), (∀ v ∈ vs, v.u = u) →
      vs.foldl (fun acc x => acc.bind (fun b => pintAdd b x)) (some ⟨a, u⟩) =
        some ⟨a + (vs.map PintQ.mag).sum, u⟩ := by
  induction vs with
  | nil => intro a _; simp
  | cons v vs ih =>
    intro a h
    have hv : v.u = u := h v (List.mem_cons_self v vs)
    have hrest : ∀ w ∈ vs, w.u = u := fun w hw => h w (List.mem_cons_of_mem v hw)
    have step : pintAdd ⟨a, u⟩ v = some ⟨a + v.mag, u⟩ := by
      simp [pintAdd, hv, mul_div_assoc, div_self hf]
    rw [List.foldl_cons, show ((some ⟨a, u⟩ : Option PintQ).bind
        (fun b => pintAdd b v)) = pintAdd ⟨a, u⟩ v from rfl, step,
      ih (a + v.mag) hrest]
    congr 2
    simp
    ring

/-- `pintSum` over a nonempty list of quantities sharing one unit. -/
theorem pintSum_const_unit (u : UnitE) (hf : u.factor ≠ 0)
    (l : List PintQ) (hne : l ≠ []) (h : ∀ v ∈ l, v.u = u) :
    pintSum l = some ⟨(l.map PintQ.mag).sum, u⟩ := by
  obtain ⟨v, vs, rfl⟩ := List.exists_cons_of_ne_nil hne
  have hv : v.u = u := h v (List.mem_cons_self v vs)
  have hrest : ∀ w ∈ vs, w.u = u := fun w hw => h w (List.mem_cons_of_mem v hw)
  have : (⟨v.mag, u⟩ : PintQ) = v := by cases v; simp_all
  rw [pintSum, ← this, foldl_pintAdd_const_unit u hf vs v.mag hrest]
  simp

/-- `List.mapM` over `Option` when every element succeeds pointwise. -/
theorem mapM_option_of_forall {α β : Type} (f : α → Option β) (g : α → β)
    (l : List α) (h : ∀ x ∈ l, f x = some (g x)) :
    l.mapM f = some (l.map g) := by
  induction l with
  | nil => rfl
  | cons x xs ih =>
    rw [List.mapM_cons, h x (List.mem_cons_self x xs),
      ih (fun y hy => h y (List.mem_cons_of_mem x hy))]
    rfl

/-- `from_weighted_mean` on a nonempty all-numeric single-symbol list
whose values are expressed in the symbol's (unconstrained) canonical
units: the aggregate's value is the arithmetic mean of the magnitudes
and the squared uncertainty is the population variance; tags are the
accumulated input tags and the provenance inputs are the aggregated
quantities. -/
theorem from_weighted_mean_same_units (cEval : String → ℚ → Bool) (sym : SymbolE)
    (l : List QuantityE) (hne : l ≠ []) (hcon : sym.constraint = Option.none)
    (hf : sym.units.factor ≠ 0)
    (h : ∀ q ∈ l, q.isNum = true ∧ q.symbol = sym ∧
          (QuantityE.numValue q).u = sym.units) :
    from_weighted_mean cEval l =
      Except.ok
        { symbol := sym
          value := ⟨listMean (l.map fun q => (QuantityE.numValue q).mag), sym.units⟩
          stdSqMag := listVar (l.map fun q => (QuantityE.numValue q).mag)
          tags := collectTags l
          inputs := l } := by
  obtain ⟨q0, rest, rfl⟩ := List.exists_cons_of_ne_nil hne
  have hsym0 : q0.symbol = sym := (h q0 (List.mem_cons_self _ _)).2.1
  have hall : (q0 :: rest).all QuantityE.isNum = true := by
    rw [List.all_eq_true]; exact fun q hq => (h q hq).1
  have hsyms : (q0 :: rest).all (fun q => decide (q.symbol = q0.symbol)) = true := by
    rw [List.all_eq_true]
    intro q hq
    simp [(h q hq).2.1, hsym0]
  have hvu : ∀ v ∈ (q0 :: rest).map QuantityE.numValue, v.u = sym.units := by
    intro v hv
    obtain ⟨q, hq, rfl⟩ := List.mem_map.mp hv
    exact (h q hq).2.2
  have hfsq : sym.units.factor ^ 2 ≠ 0 := pow_ne_zero 2 hf
  have hsum : pintSum ((q0 :: rest).map QuantityE.numValue) =
      some ⟨(((q0 :: rest).map QuantityE.numValue).map PintQ.mag).sum, sym.units⟩ :=
    pintSum_const_unit _ hf _ (by simp) hvu
  set S : ℚ := (((q0 :: rest).map QuantityE.numValue).map PintQ.mag).sum with hS
  set n : ℚ := (((q0 :: rest).length : ℕ) : ℚ) with hn
  have hsub : ∀ v ∈ (q0 :: rest).map QuantityE.numValue,
      (pintSub v ⟨S / n, sym.units⟩).map pintSq =
        some (pintSq ⟨v.mag - S / n, sym.units⟩) := by
    intro v hv
    simp [pintSub, hvu v hv, mul_div_assoc, div_self hf]
  have hmapM := mapM_option_of_forall _ _ _ hsub
  have hsqU : ∀ w ∈ ((q0 :: rest).map QuantityE.numValue).map
      (fun v => pintSq ⟨v.mag - S / n, sym.units⟩),
      w.u = ⟨2 * sym.units.dim, sym.units.factor ^ 2⟩ := by
    intro w hw
    obtain ⟨v, _, rfl⟩ := List.mem_map.mp hw
    rfl
  have hsum2 := pintSum_const_unit ⟨2 * sym.units.dim, sym.units.factor ^ 2⟩
      hfsq _ (by simp) hsqU
  simp only [from_weighted_mean, pintSumSqDev]
  rw [if_neg (not_not_intro hall), if_neg (not_not_intro hsyms), hsum]
  simp only [bind, Option.bind, hmapM, hsum2, PintQ.conv, hsym0, hcon,
    eq_self_iff_true, if_true, if_pos rfl]
  simp only [hS, hn, listMean, listVar, List.map_map, Function.comp_def,
    pintSq, mul_div_assoc, div_self hf, mul_one, one_pow, List.length_map]

/-- C4: for every nonempty list of numeric quantities of one
(unconstrained) symbol, with values expressed in the symbol's canonical
units, `from_weighted_mean` produces a quantity whose magnitude is the
arithmetic mean of the input magnitudes and whose uncertainty is the
(population) standard deviation of those magnitudes — `stdSqMag` is the
squared uncertainty, i.e. the variance; in particular for values evenly
spaced over [1.0, 2.0] in steps of 0.01 (no units) the aggregate's
magnitude is 3/2 and its standard deviation is within 1e-4 of 0.2915. -/
theorem c4_weighted_mean_aggregation :
    (∀ (cEval : String → ℚ → Bool) (sym : SymbolE) (l : List QuantityE),
      l ≠ [] → sym.constraint = Option.none → sym.units.factor ≠ 0 →
      (∀ q ∈ l, q.isNum = true ∧ q.symbol = sym ∧
        (QuantityE.numValue q).u = sym.units) →
      from_weighted_mean cEval l =
        Except.ok
          { symbol := sym
            value := ⟨listMean (l.map fun q => (QuantityE.numValue q).mag), sym.units⟩
            stdSqMag := listVar (l.map fun q => (QuantityE.numValue q).mag)
            tags := collectTags l
            inputs := l }) ∧
    (∃ r, from_weighted_mean (fun _ _ => true) aggTestList = Except.ok r ∧
      r.value.mag = 3 / 2 ∧ r.stdSqMag = 17 / 200 ∧
      |r.stdDev - 2915 / 10000| < 1 / 10000) := by
  constructor
  · exact from_weighted_mean_same_units
  · have hlist : ∀ q ∈ aggTestList, q.isNum = true ∧ q.symbol = aggSym ∧
        (QuantityE.numValue q).u = aggSym.units := by
      intro q hq
      simp only [aggTestList, List.mem_map, List.mem_range] at hq
      obtain ⟨k, _, rfl⟩ := hq
      exact ⟨rfl, rfl, rfl⟩
    have hc := from_weighted_mean_same_units (fun _ _ => true) aggSym aggTestList
      (by simp [aggTestList, List.map_eq_nil_iff, List.range_eq_nil])
      rfl (by norm_num [aggSym, dimensionlessU]) hlist
    have hmag : listMean (aggTestList.map fun q => (QuantityE.numValue q).mag) = 3 / 2 := by
      norm_num [aggTestList, listMean, List.map_map, Function.comp_def,
        QuantityE.numValue, List.range_succ]
    have hvar : listVar (aggTestList.map fun q => (QuantityE.numValue q).mag) = 17 / 200 := by
      norm_num [aggTestList, listVar, listMean, List.map_map, Function.comp_def,
        QuantityE.numValue, List.range_succ]
    refine ⟨_, hc, by simp [hmag], by simp [hvar], ?_⟩
    simp only [AggOut.stdDev, hvar]
    have hcast : (((17 : ℚ) / 200 : ℚ) : ℝ) = 17 / 200 := by norm_num
    rw [hcast, abs_lt]
    constructor <;>
      nlinarith [Real.sq_sqrt (show (0:ℝ) ≤ 17 / 200 by norm_num),
        Real.sqrt_nonneg ((17:ℝ) / 200)]

/-- Witness for `c4_weighted_mean_aggregation` on the two-element list
with magnitudes 1 and 2: mean 3/2, variance 1/4. -/
theorem c4_weighted_mean_aggregation_witness :
    from_weighted_mean (fun _ _ => true)
      [QuantityE.num aggSym ⟨1, dimensionlessU⟩ Option.none [] Option.none "a",
       QuantityE.num aggSym ⟨2, dimensionlessU⟩ Option.none [] Option.none "b"] =
      Except.ok
        { symbol := aggSym
          value := ⟨3 / 2, dimensionlessU⟩
          stdSqMag := 1 / 4
          tags := []
          inputs :=
            [QuantityE.num aggSym ⟨1, dimensionlessU⟩ Option.none [] Option.none "a",
             QuantityE.num aggSym ⟨2, dimensionlessU⟩ Option.none [] Option.none "b"] } := by
  have h := c4_weighted_mean_aggregation.1 (fun _ _ => true) aggSym
    [QuantityE.num aggSym ⟨1, dimensionlessU⟩ Option.none [] Option.none "a",
     QuantityE.num aggSym ⟨2, dimensionlessU⟩ Option.none [] Option.none "b"]
    (by simp) rfl (by norm_num [aggSym, dimensionlessU])
    (by
      intro q hq
      simp only [List.mem_cons, List.not_mem_nil, or_false] at hq
      rcases hq with rfl | rfl <;> exact ⟨rfl, rfl, rfl⟩)
  rw [h]
  norm_num [listMean, listVar, collectTags, QuantityE.numValue, QuantityE.tags,
    aggSym, dimensionlessU]

/-- `anyEqB x ys` holds when some member of `ys` equals `x`. -/
theorem anyEqB_of_mem {x y : PSQE} {ys : List PSQE} (hmem : y ∈ ys)
    (hxy : psqEqB x y = true) : anyEqB x ys = true := by
  induction ys with
  | nil => exact absurd hmem (List.not_mem_nil y)
  | cons z zs ih =>
    rw [anyEqB, Bool.or_eq_true]
    cases hmem with
    | head => exact Or.inl hxy
    | tail _ h => exact Or.inr (ih h)

/-- `allMemB xs ys` holds when every member of `xs` matches in `ys`. -/
theorem allMemB_of_forall {xs ys : List PSQE}
    (h : ∀ x ∈ xs, anyEqB x ys = true) : allMemB xs ys = true := by
  induction xs with
  | nil => rw [allMemB]
  | cons x xs ih =>
    rw [allMemB, Bool.and_eq_true]
    exact ⟨h x (List.mem_cons_self _ _),
      ih fun y hy => h y (List.mem_cons_of_mem _ hy)⟩

/-- `StorageQuantity.__eq__` is reflexive (strong induction on size). -/
theorem psqEqB_refl : ∀ (n : ℕ) (x : PSQE), sizeOf x ≤ n → psqEqB x x = true := by
  intro n
  induction n with
  | zero =>
    intro x hx
    obtain ⟨dt, sym, iid, tags, units, value, unc, prov, fd, vr⟩ := x
    simp at hx
  | succ n ih =>
    intro x hx
    obtain ⟨dt, sym, iid, tags, units, value, unc, prov, fd, vr⟩ := x
    rw [psqEqB, Bool.and_eq_true]
    refine ⟨by simp, ?_⟩
    cases prov with
    | none => rw [provOptEqB]
    | some p =>
      obtain ⟨m, src, inputs⟩ := p
      rw [provOptEqB, psStoreEqB, Bool.and_eq_true]
      refine ⟨by simp, ?_⟩
      have hsize : ∀ y ∈ inputs.getD ([] : List PSQE), sizeOf y ≤ n := by
        intro y hy
        have h1 : sizeOf y < sizeOf (inputs.getD ([] : List PSQE)) :=
          List.sizeOf_lt_of_mem hy
        have h2 : sizeOf (inputs.getD ([] : List PSQE)) ≤ sizeOf inputs := by
          cases inputs <;> simp [Option.getD]
        simp at hx
        omega
      have hmem : ∀ y ∈ inputs.getD ([] : List PSQE), psqEqB y y = true :=
        fun y hy => ih y (hsize y hy)
      rw [listSetEqB, Bool.and_eq_true]
      constructor <;>
        exact allMemB_of_forall fun y hy => anyEqB_of_mem hy (hmem y hy)

/-- C10: `ProvenanceStore.__eq__` depends only on the model and the set
of inputs: equal models plus a permutation of the input list give equal
stores, for arbitrary (e.g. differently timestamped) source metadata. -/
theorem c10_store_eq_model_inputs_only (m : Option String)
    (s1 s2 : List (String × String)) (i1 i2 : Option (List PSQE))
    (hperm : (i1.getD []).Perm (i2.getD [])) :
    psStoreEqB (PStoreE.mk m s1 i1) (PStoreE.mk m s2 i2) = true := by
  rw [psStoreEqB, Bool.and_eq_true]
  refine ⟨by simp, ?_⟩
  rw [listSetEqB, Bool.and_eq_true]
  constructor
  · exact allMemB_of_forall fun x hx =>
      anyEqB_of_mem (hperm.mem_iff.mp hx) (psqEqB_refl (sizeOf x) x le_rfl)
  · exact allMemB_of_forall fun x hx =>
      anyEqB_of_mem (hperm.mem_iff.mpr hx) (psqEqB_refl (sizeOf x) x le_rfl)

/-- Witness for `c10_store_eq_model_inputs_only`: same model, swapped
inputs, different `date_created` source stamps. -/
theorem c10_store_eq_model_inputs_only_witness :
    psStoreEqB
      (PStoreE.mk (some "mdl") [("date_created", "2019-01-01")] (some [psqW1, psqW2]))
      (PStoreE.mk (some "mdl") [("date_created", "2020-02-02")] (some [psqW2, psqW1])) =
      true :=
  c10_store_eq_model_inputs_only (some "mdl") _ _ _ _ (List.Perm.swap psqW2 psqW1 [])

/-- C9: `ProvenanceStoreQuantity.to_quantity` resolves values on a deep
copy of the receiver: for any lookup (present or absent) and any
outcome, the receiver — in particular its stored value, units,
uncertainty and `is_value_retrieved()` flag — is unchanged. -/
theorem c9_to_quantity_preserves_receiver (cEval : String → ℚ → Bool)
    (lookup : Option LookupF) (now : String) (q : PSQE) :
    (psqToQuantityStateful cEval lookup now q).2 = q ∧
    ((psqToQuantityStateful cEval lookup now q).2).value = q.value ∧
    ((psqToQuantityStateful cEval lookup now q).2).units = q.units ∧
    ((psqToQuantityStateful cEval lookup now q).2).uncertainty = q.uncertainty ∧
    ((psqToQuantityStateful cEval lookup now q).2).valueRetrieved =
      q.valueRetrieved :=
  ⟨rfl, rfl, rfl, rfl, rfl⟩

/-- When the missing-key set is empty and no lookup is supplied,
`StorageQuantity.to_quantity` takes the `needs_lookup() and not lookup`
branch and raises the missing-lookup `ValueError`. -/
theorem toQuantity_error_of_no_missing (cEval : String → ℚ → Bool)
    (now : String) (sq : SQE) (hres : sq.get_missing_keys = []) :
    SQE.toQuantity cEval Option.none now sq = Except.error PErr.missingLookup := by
  obtain ⟨dt, sym, iid, tags, units, value, unc, prov⟩ := sq
  cases prov with
  | none => simp [SQE.toQuantity]
  | some p =>
    have hm : storeMissing p = [] := by
      simpa [SQE.get_missing_keys] using hres
    simp [SQE.toQuantity, hm]

/-- C1: `to_quantity` raises the missing-lookup `ValueError` exactly
backwards.  First conjunct: whenever the missing-key set is **empty**
and no lookup is given, the conversion fails with the missing-lookup
error (the claim says it must succeed).  Second conjunct: on a storage
quantity whose provenance has an unresolved input, no lookup given, the
missing-lookup branch is skipped and the conversion instead fails with
the `ProvenanceStoreQuantity` no-value `ValueError`. -/
theorem c1_needs_lookup_inversion :
    (∀ (cEval : String → ℚ → Bool) (now : String) (sq : SQE),
      sq.get_missing_keys = [] →
      SQE.toQuantity cEval Option.none now sq = Except.error PErr.missingLookup) ∧
    SQE.toQuantity (fun _ _ => true) Option.none "now" c1UnresolvedSQ =
      Except.error PErr.noValueLookedUp := by
  constructor
  · exact toQuantity_error_of_no_missing
  · rfl

/-- Witness for `c1_needs_lookup_inversion`: the storage form of a plain
sourced quantity has no missing keys, yet `to_quantity()` with no lookup
fails with the missing-lookup error. -/
theorem c1_needs_lookup_inversion_witness :
    (sqFromQuantity c1Quantity).get_missing_keys = [] ∧
    SQE.toQuantity (fun _ _ => true) Option.none "now" (sqFromQuantity c1Quantity) =
      Except.error PErr.missingLookup := by
  have h : (sqFromQuantity c1Quantity).get_missing_keys = [] := by rfl
  exact ⟨h, c1_needs_lookup_inversion.1 (fun _ _ => true) "now" _ h⟩

/-- C3: the round trip `StorageQuantity.from_quantity(q).to_quantity()`
on a quantity whose storage form has every provenance value resolved
(so no external lookup is needed) does not reproduce `q`: it raises the
missing-lookup `ValueError`, because `needs_lookup()` is inverted. -/
theorem c3_roundtrip_raises_missing_lookup :
    SQE.toQuantity (fun _ _ => true) Option.none "now" (sqFromQuantity c3Quantity) =
      Except.error PErr.missingLookup := by
  have hm : (sqFromQuantity c3Quantity).get_missing_keys = [] := by rfl
  exact toQuantity_error_of_no_missing (fun _ _ => true) "now" _ hm
